import Mathlib

/-!
Shallow embedding of `generate_blender.py` (robot_vision repository).

All real-valued quantities are modelled over `ℚ`.  The host 3D engine
projection (`world_to_camera_view` composed with the object's world matrix)
is an abstract function parameter, as are `math.cos`, `math.sin`, `math.pi`
and the `to_track_quat` orientation derivation, since those live in the host
or in the C math library.  Python `random.random()` is modelled as a stream
of unit draws `u ∈ [0,1)`; `random.uniform a b = a + (b - a) * u` consumes
one draw.
-/

/-- CONFIG constant `SCALE_MIN` from generate_blender.py. -/
def SCALE_MIN : ℚ := 1.2

/-- CONFIG constant `SCALE_MAX` from generate_blender.py. -/
def SCALE_MAX : ℚ := 1.8

/-- CONFIG constant `POS_X_MIN`. -/
def POS_X_MIN : ℚ := -0.2

/-- CONFIG constant `POS_X_MAX`. -/
def POS_X_MAX : ℚ := 0.2

/-- CONFIG constant `POS_Y_MIN`. -/
def POS_Y_MIN : ℚ := -0.2

/-- CONFIG constant `POS_Y_MAX`. -/
def POS_Y_MAX : ℚ := 0.2

/-- CONFIG constant `CAM_RAD_MIN`. -/
def CAM_RAD_MIN : ℚ := 0.6

/-- CONFIG constant `CAM_RAD_MAX`. -/
def CAM_RAD_MAX : ℚ := 1.2

/-- CONFIG constant `CAM_ELEV_MIN` (degrees). -/
def CAM_ELEV_MIN : ℚ := 10

/-- CONFIG constant `CAM_ELEV_MAX` (degrees). -/
def CAM_ELEV_MAX : ℚ := 50

/-- CONFIG constant `FOCAL_MIN` (millimetres). -/
def FOCAL_MIN : ℚ := 40

/-- CONFIG constant `FOCAL_MAX` (millimetres). -/
def FOCAL_MAX : ℚ := 80

/-- CONFIG constant `LIGHT_PWR_MIN`. -/
def LIGHT_PWR_MIN : ℚ := 800

/-- CONFIG constant `LIGHT_PWR_MAX`. -/
def LIGHT_PWR_MAX : ℚ := 1500

/-- CONFIG constant `CLASS_ID`. -/
def CLASS_ID : Nat := 0

/-- A 3-vector over `ℚ`; used both for world coordinates and for the
normalized-camera-space result of `world_to_camera_view` (x, y in [0,1] when
on-screen, z the depth sign carrier). -/
structure Vec3 where
  x : ℚ
  y : ℚ
  z : ℚ
deriving DecidableEq, Repr

/-- Componentwise difference of vectors (`mathutils.Vector` subtraction). -/
def Vec3.sub (a b : Vec3) : Vec3 := ⟨a.x - b.x, a.y - b.y, a.z - b.z⟩

/-- The visibility filter of `calc_yolo_bbox`, line 200:
`0.0 <= c.x <= 1.0 and 0.0 <= c.y <= 1.0 and c.z > 0`. -/
def visibleP (c : Vec3) : Bool :=
  decide (0 ≤ c.x ∧ c.x ≤ 1 ∧ 0 ≤ c.y ∧ c.y ≤ 1 ∧ 0 < c.z)

/-- Python `min` over a non-empty list (defaults to 0 on `[]`, which the
source never hits because of the emptiness guard). -/
def listMin : List ℚ → ℚ
  | [] => 0
  | [a] => a
  | a :: b :: t => min a (listMin (b :: t))

/-- Python `max` over a non-empty list. -/
def listMax : List ℚ → ℚ
  | [] => 0
  | [a] => a
  | a :: b :: t => max a (listMax (b :: t))

/-- The final defensive clamp `min(max(v, 0.0), 1.0)` on each bbox value. -/
def clamp01 (v : ℚ) : ℚ := min (max v 0) 1

/-- The arithmetic core of `calc_yolo_bbox` applied to the visible
(filtered) coordinate list: min/max extents, centre with the vertical axis
flipped, width/height, each clamped to [0,1]. -/
def bboxFromVisible (vis : List Vec3) : ℚ × ℚ × ℚ × ℚ :=
  let xs := vis.map Vec3.x
  let ys := vis.map Vec3.y
  let xmin := listMin xs
  let xmax := listMax xs
  let ymin := listMin ys
  let ymax := listMax ys
  let cx := (xmin + xmax) / 2
  let cy := 1 - ((ymin + ymax) / 2)
  let w := xmax - xmin
  let h := ymax - ymin
  (clamp01 cx, clamp01 cy, clamp01 w, clamp01 h)

/-- Same core with the final clamping loop removed (for the refinement
comparison of the defensive clamp). -/
def bboxFromVisibleNoClamp (vis : List Vec3) : ℚ × ℚ × ℚ × ℚ :=
  let xs := vis.map Vec3.x
  let ys := vis.map Vec3.y
  let xmin := listMin xs
  let xmax := listMax xs
  let ymin := listMin ys
  let ymax := listMax ys
  ((xmin + xmax) / 2, 1 - ((ymin + ymax) / 2), xmax - xmin, ymax - ymin)

/-- Numeric part of `calc_yolo_bbox`: `verts` are the mesh vertices (an
abstract type), `proj` is the host-owned composition
`world_to_camera_view(scene, cam, matrix_world @ v.co)`.  Returns `none` when
the evaluated mesh has no vertices, and `none` when no projected point is
visible; otherwise the clamped `(cx, cy, w, h)`. -/
def calc_yolo_bbox_vals {V : Type} (verts : List V) (proj : V → Vec3) :
    Option (ℚ × ℚ × ℚ × ℚ) :=
  if verts.isEmpty then none
  else
    let coords_2d := verts.map proj
    let visible_coords := coords_2d.filter visibleP
    if visible_coords.isEmpty then none
    else some (bboxFromVisible visible_coords)

/-- Variant of `calc_yolo_bbox_vals` with the clamping loop removed. -/
def calc_yolo_bbox_vals_noclamp {V : Type} (verts : List V) (proj : V → Vec3) :
    Option (ℚ × ℚ × ℚ × ℚ) :=
  if verts.isEmpty then none
  else
    let coords_2d := verts.map proj
    let visible_coords := coords_2d.filter visibleP
    if visible_coords.isEmpty then none
    else some (bboxFromVisibleNoClamp visible_coords)

/-- Left-pad a decimal string with zeros to width `w` (Python `%0Nd`). -/
def padZeros (w : Nat) (s : String) : String :=
  if s.length < w then String.mk (List.replicate (w - s.length) '0') ++ s
  else s

/-- Python `f-string` fixed-point formatting `{v:.6f}`: round to six decimal
places and print with exactly six fractional digits. -/
def fmt6 (q : ℚ) : String :=
  let n : ℤ := Int.floor (q * 1000000 + 1/2)
  let a := n.natAbs
  let ip := a / 1000000
  let fp := a % 1000000
  (if n < 0 then "-" else "") ++ toString ip ++ "." ++ padZeros 6 (toString fp)

/-- The label line built at line 217:
`f"{CLASS_ID} {cx:.6f} {cy:.6f} {w:.6f} {h:.6f}"`. -/
def fmtLabel (cls : Nat) (v : ℚ × ℚ × ℚ × ℚ) : String :=
  toString cls ++ " " ++ fmt6 v.1 ++ " " ++ fmt6 v.2.1 ++ " " ++ fmt6 v.2.2.1
    ++ " " ++ fmt6 v.2.2.2

/-- Full `calc_yolo_bbox`: numeric core followed by the string formatting of
line 217. -/
def calc_yolo_bbox {V : Type} (verts : List V) (proj : V → Vec3) :
    Option String :=
  (calc_yolo_bbox_vals verts proj).map (fun v => fmtLabel CLASS_ID v)

/-! ## Randomness model

Python `random.random()` is a stream of unit draws in `[0,1)`.
`random.uniform a b` is `a + (b - a) * random()`, consuming one draw. -/

/-- A pending stream of unit draws. -/
abbrev RNG : Type := List ℚ

/-- Pull one unit draw (0 when the stream is exhausted; 0 is a legal
`random.random()` value, so an exhausted stream still behaves like a valid
one). -/
def drawUnit : RNG → ℚ × RNG
  | [] => (0, [])
  | u :: rest => (u, rest)

/-- Python `random.uniform a b = a + (b - a) * random()`. -/
def uniform (a b : ℚ) (s : RNG) : ℚ × RNG :=
  let (u, s') := drawUnit s
  (a + (b - a) * u, s')

/-- Every pending unit draw lies in `[0,1)`, as `random.random()`
guarantees. -/
def UnitDraws (s : RNG) : Prop := ∀ u ∈ s, 0 ≤ u ∧ u < 1

/-- The object transform written by `randomise_object`. -/
structure ObjTransform where
  scale : ℚ × ℚ × ℚ
  rotation_euler : ℚ × ℚ × ℚ
  location : ℚ × ℚ × ℚ
deriving DecidableEq, Repr

/-- Model of `randomise_object` (lines 147-155): one scale draw replicated on all
three axes, one rotation draw replicated on all three Euler axes, and an
independently drawn X/Y position with Z fixed at 0.  `pi` abstracts
`math.pi`. -/
def randomise_object (pi : ℚ) (s : RNG) : ObjTransform × RNG :=
  let (sc, s1) := uniform SCALE_MIN SCALE_MAX s
  let (rot, s2) := uniform 0 (2 * pi) s1
  let (px, s3) := uniform POS_X_MIN POS_X_MAX s2
  let (py, s4) := uniform POS_Y_MIN POS_Y_MAX s3
  ({ scale := (sc, sc, sc),
     rotation_euler := (rot, rot, rot),
     location := (px, py, 0) }, s4)

/-- The camera state written by `randomise_camera`: focal length, location
and the Euler rotation derived by the tracking call. -/
structure CamState where
  lens : ℚ
  location : Vec3
  rotation_euler : Vec3
deriving DecidableEq, Repr

/-- Model of `math.radians`: degrees to radians with the abstract `pi`. -/
def radians (pi x : ℚ) : ℚ := x * pi / 180

/-- Model of `randomise_camera` (lines 158-182).  `pi`, `mcos`, `msin` abstract the
C math library; `trackEuler` abstracts
`direction.to_track_quat(minus-Z, Y).to_euler()`, the host's
look-along-minus-Z, up-Y orientation derivation from a direction vector. -/
def randomise_camera (pi : ℚ) (mcos msin : ℚ → ℚ) (trackEuler : Vec3 → Vec3)
    (s : RNG) : CamState × RNG :=
  let (lens, s1) := uniform FOCAL_MIN FOCAL_MAX s
  let (r, s2) := uniform CAM_RAD_MIN CAM_RAD_MAX s1
  let (elevDeg, s3) := uniform CAM_ELEV_MIN CAM_ELEV_MAX s2
  let elev := radians pi elevDeg
  let (azim, s4) := uniform 0 (2 * pi) s3
  let location : Vec3 :=
    ⟨r * mcos azim * mcos elev, r * msin azim * mcos elev, r * msin elev⟩
  let (tx, s5) := uniform POS_X_MIN POS_X_MAX s4
  let (ty, s6) := uniform POS_Y_MIN POS_Y_MAX s5
  let target_pos : Vec3 := ⟨tx / 2, ty / 2, 0⟩
  let direction := target_pos.sub location
  ({ lens := lens, location := location,
     rotation_euler := trackEuler direction }, s6)

/-! ## Scene objects, clean_scene, ensure_light -/

/-- Blender object types relevant to this script. -/
inductive ObjType where
  | CAMERA
  | LIGHT
  | MESH
  | EMPTY
  | OTHER
deriving DecidableEq, Repr

/-- A scene object: name, type, light energy and transform (energy and
transform are meaningful for lights here). -/
structure SceneObj where
  name : String
  otype : ObjType
  energy : ℚ
  location : ℚ × ℚ × ℚ
  rotation_euler : ℚ × ℚ × ℚ
deriving DecidableEq, Repr

/-- Model of `clean_scene` (lines 63-66): remove every object whose type is not in
`{CAMERA, LIGHT}`; equivalently, keep exactly the cameras and lights, in
order. -/
def clean_scene (objs : List SceneObj) : List SceneObj :=
  objs.filter (fun o => o.otype == ObjType.CAMERA || o.otype == ObjType.LIGHT)

/-- Does `needle` start `hay`? (`list` char-level helper). -/
def listStarts : List Char → List Char → Bool
  | _, [] => true
  | [], _ :: _ => false
  | a :: as, b :: bs => a == b && listStarts as bs

/-- Does `hay` contain `needle` as a contiguous substring?  Models the Python expression
`needle in hay` on strings. -/
def listHasSub : List Char → List Char → Bool
  | [], n => n.isEmpty
  | a :: as, n => listStarts (a :: as) n || listHasSub as n

/-- the Python test `Fill in o.name` combined with the LIGHT type test of
line 119. -/
def isFillLight (o : SceneObj) : Bool :=
  o.otype == ObjType.LIGHT && listHasSub o.name.toList "Fill".toList

/-- The sun test of line 122: a LIGHT named exactly `Sun`. -/
def isSunLight (o : SceneObj) : Bool :=
  o.otype == ObjType.LIGHT && o.name == "Sun"

/-- The sun object created at lines 123-128 with the sampled energy. -/
def mkSun (e : ℚ) : SceneObj :=
  { name := "Sun", otype := ObjType.LIGHT, energy := e,
    location := (5, -5, 5), rotation_euler := (0.7, 0.2, -0.7) }

/-- The fill light created at lines 130-134. -/
def mkFill (e : ℚ) (loc : ℚ × ℚ × ℚ) : SceneObj :=
  { name := "Fill", otype := ObjType.LIGHT, energy := e,
    location := loc, rotation_euler := (0, 0, 0) }

/-- Model of `ensure_light` (lines 117-134): delete every light whose name contains
`Fill`; create a sun (drawing its energy) only if no LIGHT named `Sun`
exists; always create a fresh fill light with drawn energy and position. -/
def ensure_light (s : RNG) (objs : List SceneObj) : List SceneObj × RNG :=
  let objs1 := objs.filter (fun o => !isFillLight o)
  let (objs2, s2) :=
    if objs1.any isSunLight then (objs1, s)
    else
      let (e, s') := uniform 2 5 s
      (objs1 ++ [mkSun e], s')
  let (fe, s3) := uniform LIGHT_PWR_MIN LIGHT_PWR_MAX s2
  let (fx, s4) := uniform (-4) 4 s3
  let (fy, s5) := uniform (-4) 4 s4
  let (fz, s6) := uniform 1 4 s5
  (objs2 ++ [mkFill fe (fx, fy, fz)], s6)

/-! ## Paths, extensions, import_model, and the main loop -/

/-- Last path component (`os.path` basename), as characters. -/
def basenameChars (p : String) : List Char :=
  (p.toList.splitOn '/').getLastD []

/-- Model of `os.path.splitext(path)[1]`: the extension of the last component,
including its dot; leading dots of the component never start an
extension. -/
def splitextExt (p : String) : String :=
  let base := basenameChars p
  let lead := (base.takeWhile (fun c => c == '.')).length
  let rest := base.drop lead
  if rest.contains '.' then
    String.mk ('.' :: (rest.reverse.takeWhile (fun c => c != '.')).reverse)
  else ""

/-- Python `str.lower()` (ASCII suffices for the extensions involved). -/
def lowerStr (s : String) : String :=
  String.mk (s.toList.map Char.toLower)

/-- The extension test of `import_model` (lines 139-140):
`splitext(path)[1].lower()` checked against `.glb` and `.gltf`. -/
def supportedModelExt (p : String) : Bool :=
  let ext := lowerStr (splitextExt p)
  ext == ".glb" || ext == ".gltf"

/-- Does `hay` end with `needle`? -/
def listEnds (hay needle : List Char) : Bool :=
  listStarts hay.reverse needle.reverse

/-- The background filter of main (lines 226-227):
`f.lower().endswith` on `.png`, `.jpg` and `.jpeg`. -/
def hasImageExt (f : String) : Bool :=
  let lf := (lowerStr f).toList
  listEnds lf ".png".toList || listEnds lf ".jpg".toList
    || listEnds lf ".jpeg".toList

/-- The per-attempt outcomes supplied by the host and by `random.choice`:
the chosen model path, the types of `bpy.context.selected_objects` after
import, the evaluated mesh vertex list, and this frame's projection into
normalized camera space. -/
structure FrameInput where
  modelPath : String
  importedTypes : List ObjType
  verts : List Vec3
  proj : Vec3 → Vec3

/-- The bookkeeping state of the main loop: accepted counter, frame index,
and the image and label files written so far (label files carry their
content). -/
structure GenState where
  rendered : Nat
  frame_num : Nat
  images : List String
  labels : List (String × String)

/-- One iteration of the `while` body (lines 242-287), minus the parts with
no bookkeeping effect.  An unsupported model extension raises
(`import_model`, line 143); a missing mesh or an invisible object discards
the frame, advancing only `frame_num`; otherwise the image and label pair
named by the zero-padded frame index is written and both counters
advance. -/
def stepFrame (inp : FrameInput) (s : GenState) : Except String GenState :=
  if !supportedModelExt inp.modelPath then
    Except.error ("Unsupported model format: " ++ inp.modelPath)
  else if inp.importedTypes.all (fun t => !(t == ObjType.MESH)) then
    Except.ok { s with frame_num := s.frame_num + 1 }
  else
    match calc_yolo_bbox inp.verts inp.proj with
    | none => Except.ok { s with frame_num := s.frame_num + 1 }
    | some bbox =>
      let base := "synth_" ++ padZeros 5 (toString s.frame_num)
      Except.ok
        { rendered := s.rendered + 1,
          frame_num := s.frame_num + 1,
          images := s.images ++ [base ++ ".png"],
          labels := s.labels ++ [(base ++ ".txt", bbox ++ "\n")] }

/-- Which discard path, if any, an attempt takes: the no-mesh skip of
lines 256-259 or the not-visible skip of lines 270-274. -/
inductive DiscardReason where
  | noMesh
  | notVisible
deriving DecidableEq, Repr

/-- The discard decision of one loop iteration, mirroring the branch order
of main. -/
def frameDiscard (inp : FrameInput) : Option DiscardReason :=
  if inp.importedTypes.all (fun t => !(t == ObjType.MESH)) then
    some DiscardReason.noMesh
  else if (calc_yolo_bbox inp.verts inp.proj).isNone then
    some DiscardReason.notVisible
  else none

/-- The `while rendered < NUM_IMAGES` loop over a stream of per-attempt
inputs. -/
def runE (N : Nat) : List FrameInput → GenState → Except String GenState
  | [], s => Except.ok s
  | inp :: rest, s =>
    if s.rendered < N then
      match stepFrame inp s with
      | Except.error e => Except.error e
      | Except.ok s' => runE N rest s'
    else Except.ok s

/-- The starting state of the loop (`rendered = 0`, `frame_num = 0`, nothing
written). -/
def initState : GenState :=
  { rendered := 0, frame_num := 0, images := [], labels := [] }

/-- Model of `main` (lines 222-289): the two fatal prechecks — empty model list and
empty filtered background listing — followed by the generation loop. -/
def mainE (models : List String) (bgListing : List String) (N : Nat)
    (attempts : List FrameInput) : Except String GenState :=
  if models.isEmpty then
    Except.error "MODELS list is empty. Set valid paths at top of script."
  else
    let background_files := bgListing.filter hasImageExt
    if background_files.isEmpty then
      Except.error "No background images found."
    else runE N attempts initState

/-- Variant of `calc_yolo_bbox` with the clamping loop removed, for the
refinement comparison. -/
def calc_yolo_bbox_noclamp {V : Type} (verts : List V) (proj : V → Vec3) :
    Option String :=
  (calc_yolo_bbox_vals_noclamp verts proj).map (fun v => fmtLabel CLASS_ID v)

/-- The output-pair bookkeeping invariant of the main loop: the files
written so far are indexed by a strictly increasing list of accepted frame
indices, all below the current frame index; image and label files pair up
by base name; every label content is one formatted line. -/
def gsInv (s : GenState) : Prop :=
  ∃ idxs : List Nat,
    idxs.Pairwise (· < ·) ∧
    (∀ k ∈ idxs, k < s.frame_num) ∧
    idxs.length = s.rendered ∧
    s.images = idxs.map (fun k => "synth_" ++ padZeros 5 (toString k) ++ ".png") ∧
    s.labels.map Prod.fst
      = idxs.map (fun k => "synth_" ++ padZeros 5 (toString k) ++ ".txt") ∧
    ∀ p ∈ s.labels, ∃ v : ℚ × ℚ × ℚ × ℚ, p.2 = fmtLabel CLASS_ID v ++ "\n"

/-! ## Helper lemmas -/

/-- Unfolded form of `bboxFromVisible`. -/
theorem bboxFromVisible_eq (vis : List Vec3) :
    bboxFromVisible vis =
      (clamp01 ((listMin (vis.map Vec3.x) + listMax (vis.map Vec3.x)) / 2),
       clamp01 (1 - ((listMin (vis.map Vec3.y) + listMax (vis.map Vec3.y)) / 2)),
       clamp01 (listMax (vis.map Vec3.x) - listMin (vis.map Vec3.x)),
       clamp01 (listMax (vis.map Vec3.y) - listMin (vis.map Vec3.y))) := rfl

/-- When the mesh has vertices and some projected point is visible,
`calc_yolo_bbox_vals` returns the bbox of the filtered coordinates. -/
theorem calc_yolo_bbox_vals_eq_some {V : Type} (verts : List V)
    (proj : V → Vec3) (hv : verts ≠ [])
    (hvis : (verts.map proj).filter visibleP ≠ []) :
    calc_yolo_bbox_vals verts proj
      = some (bboxFromVisible ((verts.map proj).filter visibleP)) := by
  unfold calc_yolo_bbox_vals
  rw [if_neg (by simp [List.isEmpty_eq_false, hv]),
    if_neg (by simp [List.isEmpty_eq_false, hvis])]

theorem clamp01_nonneg (v : ℚ) : 0 ≤ clamp01 v := by
  simp [clamp01]

theorem clamp01_le_one (v : ℚ) : clamp01 v ≤ 1 := by
  simp [clamp01]

theorem clamp01_eq_self {v : ℚ} (h0 : 0 ≤ v) (h1 : v ≤ 1) : clamp01 v = v := by
  simp [clamp01, max_eq_left h0, min_eq_left h1]

theorem listMin_ge {l : List ℚ} {lo : ℚ} (hne : l ≠ [])
    (h : ∀ a ∈ l, lo ≤ a) : lo ≤ listMin l := by
  induction l with
  | nil => exact absurd rfl hne
  | cons a t ih =>
    cases t with
    | nil => simpa [listMin] using h a (by simp)
    | cons b t' =>
      rw [listMin, le_min_iff]
      exact ⟨h a (by simp),
        ih (by simp) (fun x hx => h x (List.mem_cons_of_mem _ hx))⟩

theorem listMax_le {l : List ℚ} {hi : ℚ} (hne : l ≠ [])
    (h : ∀ a ∈ l, a ≤ hi) : listMax l ≤ hi := by
  induction l with
  | nil => exact absurd rfl hne
  | cons a t ih =>
    cases t with
    | nil => simpa [listMax] using h a (by simp)
    | cons b t' =>
      rw [listMax, max_le_iff]
      exact ⟨h a (by simp),
        ih (by simp) (fun x hx => h x (List.mem_cons_of_mem _ hx))⟩

theorem listMin_le_listMax {l : List ℚ} (hne : l ≠ []) :
    listMin l ≤ listMax l := by
  induction l with
  | nil => exact absurd rfl hne
  | cons a t ih =>
    cases t with
    | nil => simp [listMin, listMax]
    | cons b t' =>
      rw [listMin, listMax]
      exact le_trans (min_le_left _ _) (le_max_left _ _)

theorem visibleP_bounds {c : Vec3} (h : visibleP c = true) :
    0 ≤ c.x ∧ c.x ≤ 1 ∧ 0 ≤ c.y ∧ c.y ≤ 1 ∧ 0 < c.z := by
  simpa [visibleP] using h

/-- On a non-empty all-visible coordinate list, the four bbox values are
already inside `[0,1]`, so the defensive clamp does nothing. -/
theorem bboxFromVisible_noclamp_eq {vis : List Vec3} (hne : vis ≠ [])
    (hall : ∀ c ∈ vis, visibleP c = true) :
    bboxFromVisibleNoClamp vis = bboxFromVisible vis := by
  have hxlo : ∀ a ∈ vis.map Vec3.x, (0:ℚ) ≤ a := by
    intro a ha
    obtain ⟨c, hc, rfl⟩ := List.mem_map.mp ha
    exact (visibleP_bounds (hall c hc)).1
  have hxhi : ∀ a ∈ vis.map Vec3.x, a ≤ (1:ℚ) := by
    intro a ha
    obtain ⟨c, hc, rfl⟩ := List.mem_map.mp ha
    exact (visibleP_bounds (hall c hc)).2.1
  have hylo : ∀ a ∈ vis.map Vec3.y, (0:ℚ) ≤ a := by
    intro a ha
    obtain ⟨c, hc, rfl⟩ := List.mem_map.mp ha
    exact (visibleP_bounds (hall c hc)).2.2.1
  have hyhi : ∀ a ∈ vis.map Vec3.y, a ≤ (1:ℚ) := by
    intro a ha
    obtain ⟨c, hc, rfl⟩ := List.mem_map.mp ha
    exact (visibleP_bounds (hall c hc)).2.2.2.1
  have hmapne : ∀ f : Vec3 → ℚ, vis.map f ≠ [] := by
    intro f
    simpa using hne
  have hx0 : (0:ℚ) ≤ listMin (vis.map Vec3.x) := listMin_ge (hmapne _) hxlo
  have hx1 : listMax (vis.map Vec3.x) ≤ 1 := listMax_le (hmapne _) hxhi
  have hxm : listMin (vis.map Vec3.x) ≤ listMax (vis.map Vec3.x) :=
    listMin_le_listMax (hmapne _)
  have hy0 : (0:ℚ) ≤ listMin (vis.map Vec3.y) := listMin_ge (hmapne _) hylo
  have hy1 : listMax (vis.map Vec3.y) ≤ 1 := listMax_le (hmapne _) hyhi
  have hym : listMin (vis.map Vec3.y) ≤ listMax (vis.map Vec3.y) :=
    listMin_le_listMax (hmapne _)
  rw [bboxFromVisibleNoClamp, bboxFromVisible]
  rw [clamp01_eq_self (by linarith) (by linarith),
    clamp01_eq_self (by linarith) (by linarith),
    clamp01_eq_self (by linarith) (by linarith),
    clamp01_eq_self (by linarith) (by linarith)]

theorem calc_yolo_bbox_vals_none_of_filter_nil {V : Type} (verts : List V)
    (proj : V → Vec3) (h : (verts.map proj).filter visibleP = []) :
    calc_yolo_bbox_vals verts proj = none := by
  unfold calc_yolo_bbox_vals
  by_cases hv : verts.isEmpty
  · rw [if_pos hv]
  · rw [if_neg hv, if_pos (by simp [h])]

theorem calc_yolo_bbox_none_of_filter_nil {V : Type} (verts : List V)
    (proj : V → Vec3) (h : (verts.map proj).filter visibleP = []) :
    calc_yolo_bbox verts proj = none := by
  rw [calc_yolo_bbox, calc_yolo_bbox_vals_none_of_filter_nil verts proj h]
  rfl

/-! ## Claim theorems -/

/-- C1: on any visible (non-empty filtered) projected point set,
`calc_yolo_bbox` returns the centre with the vertical axis flipped, the
width and height as max minus min, each value independently clamped to
`[0,1]` as a final step, so every output value lies in `[0,1]`; in
particular the width is never negative or above 1. -/
theorem calc_yolo_bbox_clamped_formula (verts : List Vec3)
    (proj : Vec3 → Vec3)
    (hvis : (verts.map proj).filter visibleP ≠ []) :
    ∃ cx cy w h : ℚ,
      calc_yolo_bbox_vals verts proj = some (cx, cy, w, h) ∧
      cx = clamp01 ((listMin (((verts.map proj).filter visibleP).map Vec3.x)
        + listMax (((verts.map proj).filter visibleP).map Vec3.x)) / 2) ∧
      cy = clamp01 (1 -
        ((listMin (((verts.map proj).filter visibleP).map Vec3.y)
        + listMax (((verts.map proj).filter visibleP).map Vec3.y)) / 2)) ∧
      w = clamp01 (listMax (((verts.map proj).filter visibleP).map Vec3.x)
        - listMin (((verts.map proj).filter visibleP).map Vec3.x)) ∧
      h = clamp01 (listMax (((verts.map proj).filter visibleP).map Vec3.y)
        - listMin (((verts.map proj).filter visibleP).map Vec3.y)) ∧
      0 ≤ cx ∧ cx ≤ 1 ∧ 0 ≤ cy ∧ cy ≤ 1 ∧
      0 ≤ w ∧ w ≤ 1 ∧ 0 ≤ h ∧ h ≤ 1 := by
  have hv : verts ≠ [] := by
    intro h
    subst h
    simp at hvis
  have heq := calc_yolo_bbox_vals_eq_some verts proj hv hvis
  rw [bboxFromVisible_eq] at heq
  exact ⟨_, _, _, _, heq, rfl, rfl, rfl, rfl,
    clamp01_nonneg _, clamp01_le_one _, clamp01_nonneg _, clamp01_le_one _,
    clamp01_nonneg _, clamp01_le_one _, clamp01_nonneg _, clamp01_le_one _⟩

/-- Witness for C1, on the vertical-flip example of the spec: two points
at y = 0.2 and y = 0.8 give cy = 0.5 (and the concrete output is computed
explicitly). -/
theorem calc_yolo_bbox_clamped_formula_witness :
    (∃ cx cy w h : ℚ,
      calc_yolo_bbox_vals [Vec3.mk 0.2 0.2 1, Vec3.mk 0.8 0.8 1]
        (fun v => v) = some (cx, cy, w, h) ∧
      0 ≤ cx ∧ cx ≤ 1 ∧ 0 ≤ w ∧ w ≤ 1) ∧
    calc_yolo_bbox_vals [Vec3.mk 0.2 0.2 1, Vec3.mk 0.8 0.8 1]
        (fun v => v) = some (1/2, 1/2, 3/5, 3/5) := by
  constructor
  · obtain ⟨cx, cy, w, h, heq, _, _, _, _, h1, h2, _, _, h5, h6, _, _⟩ :=
      calc_yolo_bbox_clamped_formula
        [Vec3.mk 0.2 0.2 1, Vec3.mk 0.8 0.8 1] (fun v => v)
        (by norm_num [List.filter, visibleP]; simp)
    exact ⟨cx, cy, w, h, heq, h1, h2, h5, h6⟩
  · norm_num [calc_yolo_bbox_vals, List.filter, visibleP, bboxFromVisible,
      listMin, listMax, clamp01]

/-- C9: the final defensive clamp is a no-op — `calc_yolo_bbox` with the
clamping loop removed returns exactly the same result, for every input
point set, because the points were already filtered to the unit square
before the min/max step. -/
theorem calc_yolo_bbox_clamp_noop (verts : List Vec3) (proj : Vec3 → Vec3) :
    calc_yolo_bbox_noclamp verts proj = calc_yolo_bbox verts proj ∧
    calc_yolo_bbox_vals_noclamp verts proj = calc_yolo_bbox_vals verts proj := by
  have hvals : calc_yolo_bbox_vals_noclamp verts proj
      = calc_yolo_bbox_vals verts proj := by
    unfold calc_yolo_bbox_vals_noclamp calc_yolo_bbox_vals
    by_cases hv : verts.isEmpty
    · rw [if_pos hv, if_pos hv]
    · rw [if_neg hv, if_neg hv]
      by_cases hf : ((verts.map proj).filter visibleP).isEmpty
      · rw [if_pos hf, if_pos hf]
      · rw [if_neg hf, if_neg hf]
        have hne : (verts.map proj).filter visibleP ≠ [] := by
          simpa [List.isEmpty_iff] using hf
        have hall : ∀ c ∈ (verts.map proj).filter visibleP,
            visibleP c = true := fun c hc => List.of_mem_filter hc
        rw [bboxFromVisible_noclamp_eq hne hall]
  exact ⟨by rw [calc_yolo_bbox_noclamp, calc_yolo_bbox, hvals], hvals⟩

/-- C3: an attempt with no mesh-type import or with no visible projected
point is discarded: no image or label is written, the accepted counter does
not advance, and the frame index advances by exactly 1. -/
theorem discard_advances_frame_only (inp : FrameInput) (s : GenState)
    (hext : supportedModelExt inp.modelPath = true)
    (hd : (∀ t ∈ inp.importedTypes, t ≠ ObjType.MESH) ∨
      (inp.verts.map inp.proj).filter visibleP = []) :
    stepFrame inp s = Except.ok { s with frame_num := s.frame_num + 1 } ∧
    ({ s with frame_num := s.frame_num + 1 } : GenState).rendered
      = s.rendered ∧
    ({ s with frame_num := s.frame_num + 1 } : GenState).images = s.images ∧
    ({ s with frame_num := s.frame_num + 1 } : GenState).labels = s.labels := by
  refine ⟨?_, rfl, rfl, rfl⟩
  unfold stepFrame
  rw [hext]
  by_cases hall : inp.importedTypes.all (fun t => !(t == ObjType.MESH)) = true
  · simp [hall]
  · rcases hd with hnm | hfil
    · exact absurd (by simpa using hnm) hall
    · simp only [Bool.not_true, Bool.false_eq_true, if_false, hall,
        calc_yolo_bbox_none_of_filter_nil inp.verts inp.proj hfil]

/-- Witness for C3: a concrete attempt whose single projected point is
behind the camera is discarded with the frame index advanced by 1. -/
theorem discard_advances_frame_only_witness :
    stepFrame
      { modelPath := "model.glb", importedTypes := [ObjType.MESH],
        verts := [Vec3.mk 0.5 0.5 (-1)], proj := fun v => v }
      initState
      = Except.ok { initState with frame_num := 1 } := by
  have h := discard_advances_frame_only
    { modelPath := "model.glb", importedTypes := [ObjType.MESH],
      verts := [Vec3.mk 0.5 0.5 (-1)], proj := fun v => v }
    initState
    (by rfl)
    (Or.inr (by norm_num [List.filter, visibleP]))
  exact h.1

/-- C10: a mesh whose evaluated vertex list is empty makes `calc_yolo_bbox`
return `none` whatever the projection is, and the frame is discarded through
the recoverable not-visible path — distinct from the no-mesh-object
discard — with only the frame index advancing. -/
theorem empty_mesh_discarded_not_visible (inp : FrameInput) (s : GenState)
    (hm : ObjType.MESH ∈ inp.importedTypes) (hv : inp.verts = []) :
    (∀ proj : Vec3 → Vec3, calc_yolo_bbox ([] : List Vec3) proj = none) ∧
    frameDiscard inp = some DiscardReason.notVisible ∧
    DiscardReason.notVisible ≠ DiscardReason.noMesh ∧
    (supportedModelExt inp.modelPath = true →
      stepFrame inp s = Except.ok { s with frame_num := s.frame_num + 1 }) := by
  have hall : inp.importedTypes.all (fun t => !(t == ObjType.MESH)) = false := by
    rw [List.all_eq_false]
    exact ⟨ObjType.MESH, hm, by simp⟩
  refine ⟨fun proj => rfl, ?_, by simp, fun hext => ?_⟩
  · unfold frameDiscard
    rw [hall]
    simp [hv, calc_yolo_bbox]
    rfl
  · unfold stepFrame
    rw [hext, hall]
    simp only [Bool.not_true, Bool.false_eq_true, if_false, hv]
    have : calc_yolo_bbox ([] : List Vec3) inp.proj = none := rfl
    rw [this]

/-- Witness for C10: a concrete attempt that did import a mesh, but whose
mesh has zero vertices, is discarded via the not-visible path. -/
theorem empty_mesh_discarded_not_visible_witness :
    frameDiscard
      { modelPath := "model.glb", importedTypes := [ObjType.EMPTY, ObjType.MESH],
        verts := [], proj := fun v => v }
      = some DiscardReason.notVisible ∧
    stepFrame
      { modelPath := "model.glb", importedTypes := [ObjType.EMPTY, ObjType.MESH],
        verts := [], proj := fun v => v }
      initState
      = Except.ok { initState with frame_num := 1 } := by
  have h := empty_mesh_discarded_not_visible
    { modelPath := "model.glb", importedTypes := [ObjType.EMPTY, ObjType.MESH],
      verts := [], proj := fun v => v }
    initState
    (by simp)
    rfl
  exact ⟨h.2.1, h.2.2.2 (by rfl)⟩

theorem drawUnit_snd (s : RNG) : (drawUnit s).2 = s.drop 1 := by
  cases s <;> rfl

theorem drawUnit_fst_mem {s : RNG} (hs : UnitDraws s) :
    0 ≤ (drawUnit s).1 ∧ (drawUnit s).1 < 1 := by
  cases s with
  | nil => simp [drawUnit]
  | cons u t => simpa [drawUnit] using hs u (by simp)

theorem uniform_eq (a b : ℚ) (s : RNG) :
    uniform a b s = (a + (b - a) * (drawUnit s).1, s.drop 1) := by
  cases s <;> rfl

theorem UnitDraws.drop {s : RNG} (hs : UnitDraws s) (n : Nat) :
    UnitDraws (s.drop n) :=
  fun u hu => hs u (List.drop_subset n s hu)

/-- C5: the sampled object transform uses one scale draw in
[SCALE_MIN, SCALE_MAX] replicated on all three axes, one rotation draw in
[0, 2π) replicated on all three Euler axes, independent uniform X and Y
position draws in their configured ranges, and Z fixed at 0; exactly four
unit draws are consumed. -/
theorem randomise_object_spec (pi : ℚ) (s : RNG) (hs : UnitDraws s)
    (hpi : 0 < pi) :
    ∃ sc rot px py : ℚ,
      randomise_object pi s =
        ({ scale := (sc, sc, sc), rotation_euler := (rot, rot, rot),
           location := (px, py, 0) }, s.drop 4) ∧
      SCALE_MIN ≤ sc ∧ sc ≤ SCALE_MAX ∧
      0 ≤ rot ∧ rot < 2 * pi ∧
      POS_X_MIN ≤ px ∧ px ≤ POS_X_MAX ∧
      POS_Y_MIN ≤ py ∧ py ≤ POS_Y_MAX := by
  obtain ⟨ha0, ha1⟩ := drawUnit_fst_mem hs
  obtain ⟨hb0, hb1⟩ := drawUnit_fst_mem (hs.drop 1)
  obtain ⟨hc0, hc1⟩ := drawUnit_fst_mem (hs.drop 2)
  obtain ⟨hd0, hd1⟩ := drawUnit_fst_mem (hs.drop 3)
  refine ⟨SCALE_MIN + (SCALE_MAX - SCALE_MIN) * (drawUnit s).1,
    0 + (2 * pi - 0) * (drawUnit (s.drop 1)).1,
    POS_X_MIN + (POS_X_MAX - POS_X_MIN) * (drawUnit (s.drop 2)).1,
    POS_Y_MIN + (POS_Y_MAX - POS_Y_MIN) * (drawUnit (s.drop 3)).1,
    ?_, ?_, ?_, ?_, ?_, ?_, ?_, ?_, ?_⟩
  · simp only [randomise_object, uniform_eq, List.drop_drop]
  · simp only [SCALE_MIN, SCALE_MAX]
    nlinarith [ha0, ha1]
  · simp only [SCALE_MIN, SCALE_MAX]
    nlinarith [ha0, ha1]
  · nlinarith [hb0, hb1, hpi]
  · nlinarith [hb0, hb1, hpi]
  · simp only [POS_X_MIN, POS_X_MAX]
    nlinarith [hc0, hc1]
  · simp only [POS_X_MIN, POS_X_MAX]
    nlinarith [hc0, hc1]
  · simp only [POS_Y_MIN, POS_Y_MAX]
    nlinarith [hd0, hd1]
  · simp only [POS_Y_MIN, POS_Y_MAX]
    nlinarith [hd0, hd1]

/-- Witness for C5 at a concrete draw stream and a concrete rational stand-in
for pi. -/
theorem randomise_object_spec_witness :
    ∃ sc rot px py : ℚ,
      randomise_object 3 [0, 1/2, 1/4, 3/4] =
        ({ scale := (sc, sc, sc), rotation_euler := (rot, rot, rot),
           location := (px, py, 0) }, []) ∧
      SCALE_MIN ≤ sc ∧ sc ≤ SCALE_MAX ∧ 0 ≤ rot ∧ rot < 2 * 3 := by
  obtain ⟨sc, rot, px, py, heq, h1, h2, h3, h4, _⟩ :=
    randomise_object_spec 3 [0, 1/2, 1/4, 3/4]
      (by
        intro u hu
        simp at hu
        rcases hu with h | h | h | h <;> subst h <;> norm_num)
      (by norm_num)
  exact ⟨sc, rot, px, py, by simpa using heq, h1, h2, h3, h4⟩

/-- C6: the camera gets a uniform focal length in [FOCAL_MIN, FOCAL_MAX];
its position is the Cartesian image of a spherical sample with radius in
[CAM_RAD_MIN, CAM_RAD_MAX], elevation in [CAM_ELEV_MIN, CAM_ELEV_MAX]
degrees converted to radians and azimuth in [0, 2π); its orientation comes
from tracking toward a target with X and Y resampled in half the object
position range and Z = 0, through the look-along-minus-Z, up-Y
derivation. -/
theorem randomise_camera_spec (pi : ℚ) (mcos msin : ℚ → ℚ)
    (trackEuler : Vec3 → Vec3) (s : RNG) (hs : UnitDraws s) (hpi : 0 < pi) :
    ∃ lens r elevDeg azim tx ty : ℚ,
      randomise_camera pi mcos msin trackEuler s =
        ({ lens := lens,
           location := ⟨r * mcos azim * mcos (radians pi elevDeg),
                        r * msin azim * mcos (radians pi elevDeg),
                        r * msin (radians pi elevDeg)⟩,
           rotation_euler := trackEuler
             ((Vec3.mk (tx / 2) (ty / 2) 0).sub
               ⟨r * mcos azim * mcos (radians pi elevDeg),
                r * msin azim * mcos (radians pi elevDeg),
                r * msin (radians pi elevDeg)⟩) }, s.drop 6) ∧
      FOCAL_MIN ≤ lens ∧ lens ≤ FOCAL_MAX ∧
      CAM_RAD_MIN ≤ r ∧ r ≤ CAM_RAD_MAX ∧
      CAM_ELEV_MIN ≤ elevDeg ∧ elevDeg ≤ CAM_ELEV_MAX ∧
      0 ≤ azim ∧ azim < 2 * pi ∧
      POS_X_MIN / 2 ≤ tx / 2 ∧ tx / 2 ≤ POS_X_MAX / 2 ∧
      POS_Y_MIN / 2 ≤ ty / 2 ∧ ty / 2 ≤ POS_Y_MAX / 2 := by
  obtain ⟨ha0, ha1⟩ := drawUnit_fst_mem hs
  obtain ⟨hb0, hb1⟩ := drawUnit_fst_mem (hs.drop 1)
  obtain ⟨hc0, hc1⟩ := drawUnit_fst_mem (hs.drop 2)
  obtain ⟨hd0, hd1⟩ := drawUnit_fst_mem (hs.drop 3)
  obtain ⟨he0, he1⟩ := drawUnit_fst_mem (hs.drop 4)
  obtain ⟨hf0, hf1⟩ := drawUnit_fst_mem (hs.drop 5)
  refine ⟨FOCAL_MIN + (FOCAL_MAX - FOCAL_MIN) * (drawUnit s).1,
    CAM_RAD_MIN + (CAM_RAD_MAX - CAM_RAD_MIN) * (drawUnit (s.drop 1)).1,
    CAM_ELEV_MIN + (CAM_ELEV_MAX - CAM_ELEV_MIN) * (drawUnit (s.drop 2)).1,
    0 + (2 * pi - 0) * (drawUnit (s.drop 3)).1,
    POS_X_MIN + (POS_X_MAX - POS_X_MIN) * (drawUnit (s.drop 4)).1,
    POS_Y_MIN + (POS_Y_MAX - POS_Y_MIN) * (drawUnit (s.drop 5)).1,
    ?_, ?_, ?_, ?_, ?_, ?_, ?_, ?_, ?_, ?_, ?_, ?_, ?_⟩
  · simp only [randomise_camera, uniform_eq, List.drop_drop]
  · simp only [FOCAL_MIN, FOCAL_MAX]
    nlinarith [ha0, ha1]
  · simp only [FOCAL_MIN, FOCAL_MAX]
    nlinarith [ha0, ha1]
  · simp only [CAM_RAD_MIN, CAM_RAD_MAX]
    nlinarith [hb0, hb1]
  · simp only [CAM_RAD_MIN, CAM_RAD_MAX]
    nlinarith [hb0, hb1]
  · simp only [CAM_ELEV_MIN, CAM_ELEV_MAX]
    nlinarith [hc0, hc1]
  · simp only [CAM_ELEV_MIN, CAM_ELEV_MAX]
    nlinarith [hc0, hc1]
  · nlinarith [hd0, hd1, hpi]
  · nlinarith [hd0, hd1, hpi]
  · simp only [POS_X_MIN, POS_X_MAX]
    nlinarith [he0, he1]
  · simp only [POS_X_MIN, POS_X_MAX]
    nlinarith [he0, he1]
  · simp only [POS_Y_MIN, POS_Y_MAX]
    nlinarith [hf0, hf1]
  · simp only [POS_Y_MIN, POS_Y_MAX]
    nlinarith [hf0, hf1]

/-- Witness for C6 at a concrete draw stream, with identity stand-ins for
the trigonometric and tracking functions. -/
theorem randomise_camera_spec_witness :
    ∃ lens r elevDeg azim tx ty : ℚ,
      randomise_camera 3 (fun q => q) (fun q => q) (fun v => v)
          [0, 1/2, 1/4, 3/4, 1/8, 1/3] =
        ({ lens := lens,
           location := ⟨r * azim * radians 3 elevDeg,
                        r * azim * radians 3 elevDeg,
                        r * radians 3 elevDeg⟩,
           rotation_euler :=
             (Vec3.mk (tx / 2) (ty / 2) 0).sub
               ⟨r * azim * radians 3 elevDeg,
                r * azim * radians 3 elevDeg,
                r * radians 3 elevDeg⟩ }, []) ∧
      FOCAL_MIN ≤ lens ∧ lens ≤ FOCAL_MAX ∧ 0 ≤ azim ∧ azim < 2 * 3 := by
  obtain ⟨lens, r, elevDeg, azim, tx, ty, heq, h1, h2, _, _, _, _, h7, h8, _⟩ :=
    randomise_camera_spec 3 (fun q => q) (fun q => q) (fun v => v)
      [0, 1/2, 1/4, 3/4, 1/8, 1/3]
      (by
        intro u hu
        simp at hu
        rcases hu with h | h | h | h | h | h <;> subst h <;> norm_num)
      (by norm_num)
  exact ⟨lens, r, elevDeg, azim, tx, ty, by simpa using heq, h1, h2, h7, h8⟩

/-- C7: the per-frame scene reset keeps exactly the camera and light
objects, in order, and removes everything else. -/
theorem clean_scene_spec (objs : List SceneObj) :
    (∀ o : SceneObj, o ∈ clean_scene objs ↔
      (o ∈ objs ∧ (o.otype = ObjType.CAMERA ∨ o.otype = ObjType.LIGHT))) ∧
    (clean_scene objs).Sublist objs := by
  constructor
  · intro o
    simp only [clean_scene, List.mem_filter, Bool.or_eq_true, beq_iff_eq]
  · exact List.filter_sublist objs

theorem sun_not_fill {o : SceneObj} (h : isSunLight o = true) :
    isFillLight o = false := by
  have hname : o.name = "Sun" := by
    unfold isSunLight at h
    simp only [Bool.and_eq_true, beq_iff_eq] at h
    exact h.2
  have hsub : listHasSub "Sun".toList "Fill".toList = false := rfl
  rw [isFillLight, hname, hsub, Bool.and_false]

theorem any_congr_local {α : Type} {p q : α → Bool} {l : List α}
    (h : ∀ x ∈ l, p x = q x) : l.any p = l.any q := by
  induction l with
  | nil => rfl
  | cons a t ih =>
    rw [List.any_cons, List.any_cons, h a (by simp),
      ih (fun x hx => h x (List.mem_cons_of_mem _ hx))]

theorem remove_fills_filter_sun (objs : List SceneObj) :
    (objs.filter (fun o => !isFillLight o)).filter isSunLight
      = objs.filter isSunLight := by
  rw [List.filter_filter]
  apply List.filter_congr
  intro x _
  cases hbx : isSunLight x with
  | false => rw [Bool.false_and]
  | true => rw [sun_not_fill hbx, Bool.not_false, Bool.and_true]

theorem remove_fills_any_sun (objs : List SceneObj) :
    (objs.filter (fun o => !isFillLight o)).any isSunLight
      = objs.any isSunLight := by
  rw [List.any_filter]
  apply any_congr_local
  intro x _
  cases hbx : isSunLight x with
  | false => rw [Bool.and_false]
  | true => rw [sun_not_fill hbx, Bool.not_false, Bool.true_and]

theorem remove_fills_filter_fill (objs : List SceneObj) :
    (objs.filter (fun o => !isFillLight o)).filter isFillLight = [] := by
  rw [List.filter_filter]
  rw [List.filter_congr (fun x _ => Bool.and_not_self (isFillLight x))]
  exact List.filter_false _

/-- Unfolding of `ensure_light` in the sun-already-exists branch. -/
theorem ensure_light_eq_of_sun (objs : List SceneObj) (s : RNG)
    (hsun : objs.any isSunLight = true) :
    ensure_light s objs =
      (objs.filter (fun o => !isFillLight o) ++
        [mkFill (LIGHT_PWR_MIN + (LIGHT_PWR_MAX - LIGHT_PWR_MIN) * (drawUnit s).1)
          (-4 + (4 - -4) * (drawUnit (s.drop 1)).1,
           -4 + (4 - -4) * (drawUnit (s.drop 2)).1,
           1 + (4 - 1) * (drawUnit (s.drop 3)).1)], s.drop 4) := by
  have h1 : (objs.filter (fun o => !isFillLight o)).any isSunLight = true := by
    rw [remove_fills_any_sun, hsun]
  simp only [ensure_light, uniform_eq, List.drop_drop, h1, if_true]

/-- Unfolding of `ensure_light` in the no-sun branch. -/
theorem ensure_light_eq_of_no_sun (objs : List SceneObj) (s : RNG)
    (hsun : objs.any isSunLight = false) :
    ensure_light s objs =
      ((objs.filter (fun o => !isFillLight o) ++
          [mkSun (2 + (5 - 2) * (drawUnit s).1)]) ++
        [mkFill
          (LIGHT_PWR_MIN + (LIGHT_PWR_MAX - LIGHT_PWR_MIN)
            * (drawUnit (s.drop 1)).1)
          (-4 + (4 - -4) * (drawUnit (s.drop 2)).1,
           -4 + (4 - -4) * (drawUnit (s.drop 3)).1,
           1 + (4 - 1) * (drawUnit (s.drop 4)).1)], s.drop 5) := by
  have h1 : (objs.filter (fun o => !isFillLight o)).any isSunLight = false := by
    rw [remove_fills_any_sun, hsun]
  simp only [ensure_light, uniform_eq, List.drop_drop, h1, Bool.false_eq_true,
    if_false]


theorem isFillLight_mkSun (e : ℚ) : isFillLight (mkSun e) = false := rfl

theorem isFillLight_mkFill (e : ℚ) (loc : ℚ × ℚ × ℚ) :
    isFillLight (mkFill e loc) = true := rfl

theorem isSunLight_mkSun (e : ℚ) : isSunLight (mkSun e) = true := rfl

theorem isSunLight_mkFill (e : ℚ) (loc : ℚ × ℚ × ℚ) :
    isSunLight (mkFill e loc) = false := rfl

/-- C8: `ensure_light` always removes and recreates exactly one fill light
with energy in [LIGHT_PWR_MIN, LIGHT_PWR_MAX] and position in the fixed
cube; if a sun already exists the suns are left untouched and no energy
draw is spent on them (four draws are consumed in total), and if none
exists exactly one sun is created with energy drawn in [2,5] (five draws
in total). -/
theorem ensure_light_spec (objs : List SceneObj) (s : RNG)
    (hs : UnitDraws s) :
    ∃ fe fx fy fz : ℚ,
      LIGHT_PWR_MIN ≤ fe ∧ fe ≤ LIGHT_PWR_MAX ∧
      -4 ≤ fx ∧ fx ≤ 4 ∧ -4 ≤ fy ∧ fy ≤ 4 ∧ 1 ≤ fz ∧ fz ≤ 4 ∧
      (ensure_light s objs).1.filter isFillLight = [mkFill fe (fx, fy, fz)] ∧
      (objs.any isSunLight = true →
        (ensure_light s objs).1.filter isSunLight = objs.filter isSunLight ∧
        (ensure_light s objs).2 = s.drop 4) ∧
      (objs.any isSunLight = false →
        ∃ e, 2 ≤ e ∧ e ≤ 5 ∧
          (ensure_light s objs).1.filter isSunLight = [mkSun e] ∧
          (ensure_light s objs).2 = s.drop 5) := by
  obtain ⟨ha0, ha1⟩ := drawUnit_fst_mem hs
  obtain ⟨hb0, hb1⟩ := drawUnit_fst_mem (hs.drop 1)
  obtain ⟨hc0, hc1⟩ := drawUnit_fst_mem (hs.drop 2)
  obtain ⟨hd0, hd1⟩ := drawUnit_fst_mem (hs.drop 3)
  obtain ⟨he0, he1⟩ := drawUnit_fst_mem (hs.drop 4)
  cases hsun : objs.any isSunLight with
  | true =>
    rw [ensure_light_eq_of_sun objs s hsun]
    refine ⟨LIGHT_PWR_MIN + (LIGHT_PWR_MAX - LIGHT_PWR_MIN) * (drawUnit s).1,
      -4 + (4 - -4) * (drawUnit (s.drop 1)).1,
      -4 + (4 - -4) * (drawUnit (s.drop 2)).1,
      1 + (4 - 1) * (drawUnit (s.drop 3)).1,
      ?_, ?_, ?_, ?_, ?_, ?_, ?_, ?_, ?_, ?_, ?_⟩
    · simp only [LIGHT_PWR_MIN, LIGHT_PWR_MAX]
      nlinarith [ha0, ha1]
    · simp only [LIGHT_PWR_MIN, LIGHT_PWR_MAX]
      nlinarith [ha0, ha1]
    · nlinarith [hb0, hb1]
    · nlinarith [hb0, hb1]
    · nlinarith [hc0, hc1]
    · nlinarith [hc0, hc1]
    · nlinarith [hd0, hd1]
    · nlinarith [hd0, hd1]
    · simp only [List.filter_append, remove_fills_filter_fill,
        List.filter_cons, List.filter_nil, isFillLight_mkFill, if_true,
        List.nil_append]
    · intro _
      refine ⟨?_, rfl⟩
      simp only [List.filter_append, remove_fills_filter_sun,
        List.filter_cons, List.filter_nil, isSunLight_mkFill,
        Bool.false_eq_true, if_false, List.append_nil]
    · intro hfalse
      simp at hfalse
  | false =>
    rw [ensure_light_eq_of_no_sun objs s hsun]
    have hsunnil : objs.filter isSunLight = [] :=
      List.filter_eq_nil_iff.mpr (List.any_eq_false.mp hsun)
    refine ⟨LIGHT_PWR_MIN + (LIGHT_PWR_MAX - LIGHT_PWR_MIN)
        * (drawUnit (s.drop 1)).1,
      -4 + (4 - -4) * (drawUnit (s.drop 2)).1,
      -4 + (4 - -4) * (drawUnit (s.drop 3)).1,
      1 + (4 - 1) * (drawUnit (s.drop 4)).1,
      ?_, ?_, ?_, ?_, ?_, ?_, ?_, ?_, ?_, ?_, ?_⟩
    · simp only [LIGHT_PWR_MIN, LIGHT_PWR_MAX]
      nlinarith [hb0, hb1]
    · simp only [LIGHT_PWR_MIN, LIGHT_PWR_MAX]
      nlinarith [hb0, hb1]
    · nlinarith [hc0, hc1]
    · nlinarith [hc0, hc1]
    · nlinarith [hd0, hd1]
    · nlinarith [hd0, hd1]
    · nlinarith [he0, he1]
    · nlinarith [he0, he1]
    · simp only [List.filter_append, remove_fills_filter_fill,
        List.filter_cons, List.filter_nil, isFillLight_mkSun,
        isFillLight_mkFill, if_true, Bool.false_eq_true, if_false,
        List.nil_append, List.append_nil]
    · intro htrue
      simp at htrue
    · intro _
      refine ⟨2 + (5 - 2) * (drawUnit s).1, by nlinarith [ha0, ha1],
        by nlinarith [ha0, ha1], ?_, rfl⟩
      simp only [List.filter_append, remove_fills_filter_sun, hsunnil,
        List.filter_cons, List.filter_nil, isSunLight_mkSun,
        isSunLight_mkFill, if_true, Bool.false_eq_true, if_false,
        List.nil_append, List.append_nil]

/-- Witness for C8: starting from an empty scene with a concrete draw
stream, exactly one sun with in-range energy and exactly one fill light
exist afterwards. -/
theorem ensure_light_spec_witness :
    ∃ fe fx fy fz : ℚ,
      (ensure_light [1/2, 1/3, 1/4, 1/5, 1/6] []).1.filter isFillLight
        = [mkFill fe (fx, fy, fz)] ∧
      LIGHT_PWR_MIN ≤ fe ∧ fe ≤ LIGHT_PWR_MAX ∧
      ∃ e, 2 ≤ e ∧ e ≤ 5 ∧
        (ensure_light [1/2, 1/3, 1/4, 1/5, 1/6] []).1.filter isSunLight
          = [mkSun e] := by
  obtain ⟨fe, fx, fy, fz, hf1, hf2, _, _, _, _, _, _, hfill, _, hnosun⟩ :=
    ensure_light_spec [] [1/2, 1/3, 1/4, 1/5, 1/6]
      (by
        intro u hu
        simp at hu
        rcases hu with h | h | h | h | h <;> subst h <;> norm_num)
  obtain ⟨e, he1, he2, hsunf, _⟩ := hnosun rfl
  exact ⟨fe, fx, fy, fz, hfill, hf1, hf2, e, he1, he2, hsunf⟩

theorem stepFrame_error_cause {inp : FrameInput} {s : GenState} {e : String}
    (h : stepFrame inp s = Except.error e) :
    supportedModelExt inp.modelPath = false := by
  cases hext : supportedModelExt inp.modelPath with
  | false => rfl
  | true =>
    unfold stepFrame at h
    rw [hext] at h
    simp only [Bool.not_true, Bool.false_eq_true, if_false] at h
    cases hall : inp.importedTypes.all (fun t => !(t == ObjType.MESH)) with
    | true =>
      rw [hall] at h
      simp at h
    | false =>
      rw [hall] at h
      simp only [Bool.false_eq_true, if_false] at h
      cases hb : calc_yolo_bbox inp.verts inp.proj with
      | none =>
        rw [hb] at h
        simp at h
      | some bbox =>
        rw [hb] at h
        simp at h

theorem stepFrame_ok_total (inp : FrameInput) (s : GenState)
    (hext : supportedModelExt inp.modelPath = true) :
    ∃ s', stepFrame inp s = Except.ok s' := by
  unfold stepFrame
  rw [hext]
  simp only [Bool.not_true, Bool.false_eq_true, if_false]
  cases hall : inp.importedTypes.all (fun t => !(t == ObjType.MESH)) with
  | true => exact ⟨_, rfl⟩
  | false =>
    simp only [Bool.false_eq_true, if_false]
    cases hb : calc_yolo_bbox inp.verts inp.proj with
    | none => exact ⟨_, rfl⟩
    | some bbox => exact ⟨_, rfl⟩

theorem runE_ok_total (N : Nat) (atts : List FrameInput)
    (hgood : ∀ a ∈ atts, supportedModelExt a.modelPath = true) :
    ∀ s : GenState, ∃ s', runE N atts s = Except.ok s' := by
  induction atts with
  | nil => exact fun s => ⟨s, rfl⟩
  | cons a t ih =>
    intro s
    rw [runE]
    by_cases hr : s.rendered < N
    · rw [if_pos hr]
      obtain ⟨s1, hs1⟩ := stepFrame_ok_total a s (hgood a (by simp))
      rw [hs1]
      exact ih (fun x hx => hgood x (List.mem_cons_of_mem _ hx)) s1
    · rw [if_neg hr]
      exact ⟨s, rfl⟩

theorem runE_error_cause {N : Nat} {atts : List FrameInput} :
    ∀ {s : GenState} {e : String}, runE N atts s = Except.error e →
      ∃ a ∈ atts, supportedModelExt a.modelPath = false := by
  induction atts with
  | nil =>
    intro s e h
    rw [runE] at h
    simp at h
  | cons a t ih =>
    intro s e h
    rw [runE] at h
    by_cases hr : s.rendered < N
    · rw [if_pos hr] at h
      cases hst : stepFrame a s with
      | error e1 =>
        exact ⟨a, by simp, stepFrame_error_cause hst⟩
      | ok s1 =>
        rw [hst] at h
        obtain ⟨b, hb1, hb2⟩ := ih h
        exact ⟨b, List.mem_cons_of_mem _ hb1, hb2⟩
    · rw [if_neg hr] at h
      simp at h

theorem stepFrame_bad_ext {inp : FrameInput} (s : GenState)
    (hext : supportedModelExt inp.modelPath = false) :
    stepFrame inp s
      = Except.error ("Unsupported model format: " ++ inp.modelPath) := by
  unfold stepFrame
  rw [hext]
  rfl

theorem runE_not_lt {N : Nat} {s : GenState} (h : ¬ s.rendered < N)
    (l : List FrameInput) : runE N l s = Except.ok s := by
  cases l with
  | nil => rfl
  | cons a t => rw [runE, if_neg h]

theorem runE_append_ok {N : Nat} {l1 : List FrameInput} :
    ∀ {s t : GenState}, runE N l1 s = Except.ok t →
      ∀ l2 : List FrameInput, runE N (l1 ++ l2) s = runE N l2 t := by
  induction l1 with
  | nil =>
    intro s t h l2
    rw [runE, Except.ok.injEq] at h
    subst h
    rfl
  | cons a l1x ih =>
    intro s t h l2
    rw [runE] at h
    rw [List.cons_append, runE]
    by_cases hr : s.rendered < N
    · rw [if_pos hr] at h ⊢
      cases hst : stepFrame a s with
      | error e =>
        rw [hst] at h
        simp at h
      | ok s1 =>
        rw [hst] at h
        exact ih h l2
    · rw [if_neg hr] at h ⊢
      rw [Except.ok.injEq] at h
      subst h
      exact (runE_not_lt hr l2).symm

/-- C4: the run aborts fatally if and only if the model list is empty, the
filtered background listing is empty, or a chosen model path has an
unsupported extension: either precondition failing aborts; a run whose
attempts all carry supported extensions completes without abort however
many per-frame discards it contains; every abort stems from one of the
three conditions; and an unsupported extension on an attempt the loop
actually reaches (prefix ran clean, target not yet met) always aborts the
run. -/
theorem main_fatal_conditions (models bgs : List String) (N : Nat)
    (attempts : List FrameInput) :
    ((models = [] ∨ bgs.filter hasImageExt = []) →
      ∃ e, mainE models bgs N attempts = Except.error e) ∧
    (models ≠ [] → bgs.filter hasImageExt ≠ [] →
      (∀ a ∈ attempts, supportedModelExt a.modelPath = true) →
      ∃ final, mainE models bgs N attempts = Except.ok final) ∧
    (∀ e, mainE models bgs N attempts = Except.error e →
      models = [] ∨ bgs.filter hasImageExt = [] ∨
        ∃ a ∈ attempts, supportedModelExt a.modelPath = false) ∧
    (∀ (pre post : List FrameInput) (inp : FrameInput) (t : GenState),
      attempts = pre ++ inp :: post →
      runE N pre initState = Except.ok t →
      t.rendered < N →
      supportedModelExt inp.modelPath = false →
      ∃ e, mainE models bgs N attempts = Except.error e) := by
  refine ⟨?_, ?_, ?_, ?_⟩
  · rintro (hm | hb)
    · subst hm
      exact ⟨_, rfl⟩
    · unfold mainE
      by_cases hm : models.isEmpty
      · rw [if_pos hm]
        exact ⟨_, rfl⟩
      · rw [if_neg hm]
        rw [if_pos (by simp [hb])]
        exact ⟨_, rfl⟩
  · intro hm hb hgood
    unfold mainE
    rw [if_neg (by simp [List.isEmpty_eq_false, hm]),
      if_neg (by simp [List.isEmpty_eq_false, hb])]
    exact runE_ok_total N attempts hgood initState
  · intro e h
    unfold mainE at h
    by_cases hm : models.isEmpty
    · exact Or.inl (List.isEmpty_iff.mp hm)
    · rw [if_neg hm] at h
      by_cases hb : (bgs.filter hasImageExt).isEmpty
      · exact Or.inr (Or.inl (List.isEmpty_iff.mp hb))
      · rw [if_neg hb] at h
        exact Or.inr (Or.inr (runE_error_cause h))
  · intro pre post inp t hsplit hpre hlt hbad
    by_cases hm : models.isEmpty
    · exact ⟨_, by unfold mainE; rw [if_pos hm]⟩
    · by_cases hb : (bgs.filter hasImageExt).isEmpty
      · exact ⟨_, by unfold mainE; rw [if_neg hm, if_pos hb]⟩
      · refine ⟨"Unsupported model format: " ++ inp.modelPath, ?_⟩
        unfold mainE
        rw [if_neg hm, if_neg hb, hsplit, runE_append_ok hpre (inp :: post),
          runE, if_pos hlt, stepFrame_bad_ext t hbad]

/-- Witness for C4: an empty model list aborts; a well-formed configuration
with a discarding attempt does not abort; a reached attempt with a `.obj`
model path aborts. -/
theorem main_fatal_conditions_witness :
    (∃ e, mainE [] ["bg.png"] 1 [] = Except.error e) ∧
    (∃ final,
      mainE ["m.glb"] ["bg.png"] 1
        [{ modelPath := "m.glb", importedTypes := [ObjType.EMPTY],
           verts := [], proj := fun v => v }] = Except.ok final) ∧
    (∃ e,
      mainE ["m.glb"] ["bg.png"] 1
        [{ modelPath := "m.obj", importedTypes := [ObjType.MESH],
           verts := [], proj := fun v => v }] = Except.error e) := by
  refine ⟨?_, ?_, ?_⟩
  · exact (main_fatal_conditions [] ["bg.png"] 1 []).1 (Or.inl rfl)
  · exact (main_fatal_conditions ["m.glb"] ["bg.png"] 1 _).2.1
      (by simp) (by decide)
      (by
        intro a ha
        simp at ha
        subst ha
        rfl)
  · exact (main_fatal_conditions ["m.glb"] ["bg.png"] 1 _).2.2.2
      []
      []
      { modelPath := "m.obj", importedTypes := [ObjType.MESH],
        verts := [], proj := fun v => v }
      initState rfl rfl (by decide) (by rfl)

theorem gsInv_init : gsInv initState :=
  ⟨[], List.Pairwise.nil, by simp, rfl, rfl, rfl, by simp [initState]⟩

theorem calc_yolo_bbox_some_shape {V : Type} {verts : List V}
    {proj : V → Vec3} {bbox : String}
    (h : calc_yolo_bbox verts proj = some bbox) :
    ∃ v : ℚ × ℚ × ℚ × ℚ, bbox = fmtLabel CLASS_ID v := by
  unfold calc_yolo_bbox at h
  obtain ⟨v, _, hv⟩ := Option.map_eq_some'.mp h
  exact ⟨v, hv.symm⟩

theorem stepFrame_ok_inv {inp : FrameInput} {s s' : GenState}
    (hinv : gsInv s) (h : stepFrame inp s = Except.ok s') : gsInv s' := by
  obtain ⟨idxs, hpw, hbnd, hlen, him, hlbl, hcontent⟩ := hinv
  unfold stepFrame at h
  cases hext : supportedModelExt inp.modelPath with
  | false =>
    rw [hext] at h
    simp at h
  | true =>
    rw [hext] at h
    simp only [Bool.not_true, Bool.false_eq_true, if_false] at h
    cases hall : inp.importedTypes.all (fun t => !(t == ObjType.MESH)) with
    | true =>
      rw [hall] at h
      simp only [if_true] at h
      rw [Except.ok.injEq] at h
      subst h
      exact ⟨idxs, hpw, fun k hk => Nat.lt_succ_of_lt (hbnd k hk), hlen,
        him, hlbl, hcontent⟩
    | false =>
      rw [hall] at h
      simp only [Bool.false_eq_true, if_false] at h
      cases hb : calc_yolo_bbox inp.verts inp.proj with
      | none =>
        rw [hb] at h
        simp only [Except.ok.injEq] at h
        subst h
        exact ⟨idxs, hpw, fun k hk => Nat.lt_succ_of_lt (hbnd k hk), hlen,
          him, hlbl, hcontent⟩
      | some bbox =>
        rw [hb] at h
        simp only [Except.ok.injEq] at h
        subst h
        obtain ⟨v, hv⟩ := calc_yolo_bbox_some_shape hb
        refine ⟨idxs ++ [s.frame_num], ?_, ?_, ?_, ?_, ?_, ?_⟩
        · rw [List.pairwise_append]
          refine ⟨hpw, List.pairwise_singleton _ _, ?_⟩
          intro a ha b hbm
          rw [List.mem_singleton] at hbm
          subst hbm
          exact hbnd a ha
        · intro k hk
          rcases List.mem_append.mp hk with hk | hk
          · exact Nat.lt_succ_of_lt (hbnd k hk)
          · rw [List.mem_singleton] at hk
            subst hk
            exact Nat.lt_succ_self _
        · simp [hlen]
        · simp [him]
        · simp [hlbl]
        · intro p hp
          rcases List.mem_append.mp hp with hp | hp
          · exact hcontent p hp
          · rw [List.mem_singleton] at hp
            subst hp
            exact ⟨v, by rw [hv]⟩

theorem runE_ok_inv {N : Nat} {atts : List FrameInput} :
    ∀ {s s' : GenState}, gsInv s → runE N atts s = Except.ok s' →
      gsInv s' := by
  induction atts with
  | nil =>
    intro s s' hinv h
    rw [runE, Except.ok.injEq] at h
    subst h
    exact hinv
  | cons a t ih =>
    intro s s' hinv h
    rw [runE] at h
    by_cases hr : s.rendered < N
    · rw [if_pos hr] at h
      cases hst : stepFrame a s with
      | error e =>
        rw [hst] at h
        simp at h
      | ok s1 =>
        rw [hst] at h
        exact ih (stepFrame_ok_inv hinv hst) h
    · rw [if_neg hr, Except.ok.injEq] at h
      subst h
      exact hinv

theorem stepFrame_ok_cases {inp : FrameInput} {t u : GenState}
    (h : stepFrame inp t = Except.ok u) :
    u.frame_num = t.frame_num + 1 ∧
    ((u.rendered = t.rendered ∧ u.images = t.images ∧ u.labels = t.labels) ∨
     (u.rendered = t.rendered + 1 ∧ ∃ base : String,
       u.images = t.images ++ [base ++ ".png"] ∧
       u.labels.map Prod.fst = t.labels.map Prod.fst ++ [base ++ ".txt"])) := by
  unfold stepFrame at h
  cases hext : supportedModelExt inp.modelPath with
  | false =>
    rw [hext] at h
    simp at h
  | true =>
    rw [hext] at h
    simp only [Bool.not_true, Bool.false_eq_true, if_false] at h
    cases hall : inp.importedTypes.all (fun t => !(t == ObjType.MESH)) with
    | true =>
      rw [hall] at h
      simp only [if_true, Except.ok.injEq] at h
      subst h
      exact ⟨rfl, Or.inl ⟨rfl, rfl, rfl⟩⟩
    | false =>
      rw [hall] at h
      simp only [Bool.false_eq_true, if_false] at h
      cases hb : calc_yolo_bbox inp.verts inp.proj with
      | none =>
        rw [hb] at h
        simp only [Except.ok.injEq] at h
        subst h
        exact ⟨rfl, Or.inl ⟨rfl, rfl, rfl⟩⟩
      | some bbox =>
        rw [hb] at h
        simp only [Except.ok.injEq] at h
        subst h
        exact ⟨rfl, Or.inr ⟨rfl,
          "synth_" ++ padZeros 5 (toString t.frame_num), by simp, by simp⟩⟩

/-- C2: a run that completes with `rendered = N` has written exactly N
image files and N label files, paired by base names built from the
zero-padded accepted frame indices, the accepted indices strictly
increasing (no duplicates), every label a single formatted line; and each
loop step advances the frame index by exactly 1 while advancing the
accepted counter exactly when an output pair is appended. -/
theorem run_outputs_paired (models bgs : List String) (N : Nat)
    (attempts : List FrameInput) (final : GenState)
    (hok : mainE models bgs N attempts = Except.ok final)
    (hN : final.rendered = N) :
    final.images.length = N ∧ final.labels.length = N ∧
    (∃ idxs : List Nat,
      idxs.Pairwise (· < ·) ∧
      idxs.length = N ∧
      final.images = idxs.map
        (fun k => "synth_" ++ padZeros 5 (toString k) ++ ".png") ∧
      final.labels.map Prod.fst = idxs.map
        (fun k => "synth_" ++ padZeros 5 (toString k) ++ ".txt") ∧
      ∀ p ∈ final.labels, ∃ v : ℚ × ℚ × ℚ × ℚ,
        p.2 = fmtLabel CLASS_ID v ++ "\n") ∧
    (∀ (inp : FrameInput) (t u : GenState), stepFrame inp t = Except.ok u →
      u.frame_num = t.frame_num + 1 ∧
      ((u.rendered = t.rendered ∧ u.images = t.images ∧
        u.labels = t.labels) ∨
       (u.rendered = t.rendered + 1 ∧ ∃ base : String,
         u.images = t.images ++ [base ++ ".png"] ∧
         u.labels.map Prod.fst = t.labels.map Prod.fst
           ++ [base ++ ".txt"]))) := by
  have hrun : runE N attempts initState = Except.ok final := by
    unfold mainE at hok
    by_cases hm : models.isEmpty
    · rw [if_pos hm] at hok
      simp at hok
    · rw [if_neg hm] at hok
      by_cases hb : (bgs.filter hasImageExt).isEmpty
      · rw [if_pos hb] at hok
        simp at hok
      · rw [if_neg hb] at hok
        exact hok
  obtain ⟨idxs, hpw, _, hlen, him, hlbl, hcontent⟩ :=
    runE_ok_inv gsInv_init hrun
  refine ⟨?_, ?_, ⟨idxs, hpw, by rw [hlen, hN], him, hlbl, hcontent⟩,
    fun inp t u h => stepFrame_ok_cases h⟩
  · rw [him, List.length_map, hlen, hN]
  · have := congrArg List.length hlbl
    rw [List.length_map, List.length_map] at this
    rw [this, hlen, hN]

/-- Witness for C2: a concrete run that accepts its single attempt produces
exactly one image/label pair named by frame index 0. -/
theorem run_outputs_paired_witness :
    ∃ final : GenState,
      mainE ["m.glb"] ["bg.png"] 1
        [{ modelPath := "m.glb", importedTypes := [ObjType.MESH],
           verts := [Vec3.mk 0.2 0.2 1, Vec3.mk 0.8 0.8 1],
           proj := fun v => v }] = Except.ok final ∧
      final.rendered = 1 ∧
      final.images.length = 1 ∧ final.labels.length = 1 ∧
      final.images = ["synth_00000.png"] ∧
      final.labels = [("synth_00000.txt",
        "0 0.500000 0.500000 0.600000 0.600000\n")] := by
  have hvals : calc_yolo_bbox_vals
      [Vec3.mk 0.2 0.2 1, Vec3.mk 0.8 0.8 1] (fun v : Vec3 => v)
      = some (1/2, 1/2, 3/5, 3/5) := by
    norm_num [calc_yolo_bbox_vals, List.filter, visibleP, bboxFromVisible,
      listMin, listMax, clamp01]
  have hcalc : calc_yolo_bbox
      [Vec3.mk 0.2 0.2 1, Vec3.mk 0.8 0.8 1] (fun v : Vec3 => v)
      = some "0 0.500000 0.500000 0.600000 0.600000" := by
    rw [calc_yolo_bbox, hvals]
    norm_num [fmtLabel, fmt6]
    rfl
  have hstep : stepFrame
      { modelPath := "m.glb", importedTypes := [ObjType.MESH],
        verts := [Vec3.mk 0.2 0.2 1, Vec3.mk 0.8 0.8 1],
        proj := fun v => v } initState
      = Except.ok
        { rendered := 1, frame_num := 1, images := ["synth_00000.png"],
          labels := [("synth_00000.txt",
            "0 0.500000 0.500000 0.600000 0.600000\n")] } := by
    unfold stepFrame
    dsimp only
    rw [if_neg (by decide), if_neg (by decide), hcalc]
    rfl
  have hok : mainE ["m.glb"] ["bg.png"] 1
      [{ modelPath := "m.glb", importedTypes := [ObjType.MESH],
         verts := [Vec3.mk 0.2 0.2 1, Vec3.mk 0.8 0.8 1],
         proj := fun v => v }] = Except.ok
        { rendered := 1, frame_num := 1, images := ["synth_00000.png"],
          labels := [("synth_00000.txt",
            "0 0.500000 0.500000 0.600000 0.600000\n")] } := by
    unfold mainE
    rw [if_neg (by decide), if_neg (by decide), runE, if_pos (by decide),
      hstep]
    rfl
  obtain ⟨h1, h2, _⟩ := run_outputs_paired ["m.glb"] ["bg.png"] 1 _ _ hok rfl
  exact ⟨_, hok, rfl, h1, h2, rfl, rfl⟩
